import Mathlib

/-!
# Verification of the pnet message-framing library

A shallow embedding of the Python package `pnet` (files `byteutils.py`,
`crc.py`, `header.py`, `pclientsocket.py`, `pserversocket.py`, `pserver.py`).

Modelling conventions:

* Python `bytes` values are `List Nat` whose entries are intended to be `< 256`
  (genuine byte values); where a property needs that bound it appears as an
  explicit hypothesis.
* Python `None` results are `Option.none`; functions that can raise exceptions
  return `Except PErr _`, with one `PErr` constructor per Python exception class
  that the modelled code can raise.
* `int.to_bytes(4, "little")` raises `OverflowError` outside `[0, 2^32)`; this
  is modelled by `byteutils.int_to_bytes` returning `none` there.
* A stream transport is a list of pending chunks; one `socket.recv(n)` call
  returns at most `n` bytes taken from the first pending chunk (the remainder of
  the chunk stays buffered), and returns the empty list once no chunks remain
  (a closed stream).  This models the fact that a single TCP read may deliver
  fewer bytes than requested.
* The per-connection listening loop of `pserver.py` is modelled with explicit
  fuel; the cancellation `Event` is taken to be never set, which is the
  situation all the verified properties are about.
-/

namespace Pnet

/-- Exceptions raised by the modelled Python code.  `TypeErr`, `ValueErr` and
`OverflowErr` stand for the Python builtins; `MissingData` and `MalformedData`
stand for `pnet.error.MissingDataError` / `MalformedDataError`; `SocketErr`
stands for `socket.error`. -/
inductive PErr where
  | TypeErr
  | ValueErr
  | OverflowErr
  | MissingData
  | MalformedData
  | SocketErr
deriving DecidableEq, Repr

namespace byteutils

/-- `byteutils.BYTES_PER_INT`. -/
def BYTES_PER_INT : Nat := 4

/-- Little-endian base-256 digits: `toLE k n` is the `k`-byte little-endian
encoding of `n` (the digits that `int.to_bytes(k, "little")` produces). -/
def toLE : Nat → Nat → List Nat
  | 0, _ => []
  | k + 1, n => n % 256 :: toLE k (n / 256)

/-- Little-endian base-256 value, as computed by `int.from_bytes(b, "little")`. -/
def fromLE : List Nat → Nat
  | [] => 0
  | b :: rest => b + 256 * fromLE rest

/-- `byteutils.int_to_bytes(n)`, i.e. `n.to_bytes(4, "little")`: defined for
`0 ≤ n < 2^32`, raising `OverflowError` (modelled `none`) otherwise.  In
particular it fails on every negative input because the Python call does not
pass `signed=True`. -/
def int_to_bytes (n : Int) : Option (List Nat) :=
  if 0 ≤ n ∧ n < (2 : Int) ^ 32 then some (toLE BYTES_PER_INT n.toNat) else none

/-- `byteutils.bytes_to_int(b)`: `ValueError` unless `len(b) == 4`, otherwise
the unsigned little-endian value (`int.from_bytes` without `signed=True`). -/
def bytes_to_int (b : List Nat) : Except PErr Int :=
  if b.length = BYTES_PER_INT then .ok (fromLE b) else .error .ValueErr

theorem toLE_length (k n : Nat) : (toLE k n).length = k := by
  induction k generalizing n with
  | zero => rfl
  | succ k ih => simp [toLE, ih]

theorem toLE_lt_256 (k n : Nat) : ∀ x ∈ toLE k n, x < 256 := by
  induction k generalizing n with
  | zero => intro x hx; simp [toLE] at hx
  | succ k ih =>
    intro x hx
    simp only [toLE, List.mem_cons] at hx
    rcases hx with h | h
    · exact h ▸ Nat.mod_lt _ (by norm_num)
    · exact ih _ x h

theorem fromLE_toLE {k n : Nat} (h : n < 256 ^ k) : fromLE (toLE k n) = n := by
  induction k generalizing n with
  | zero =>
    interval_cases n
    rfl
  | succ k ih =>
    have hdiv : n / 256 < 256 ^ k := by
      rw [Nat.div_lt_iff_lt_mul (by norm_num)]
      calc n < 256 ^ (k + 1) := h
        _ = 256 ^ k * 256 := by ring
    simp [toLE, fromLE, ih hdiv, Nat.mod_add_div]

end byteutils

namespace crc

/-- `crc.NUM_BYTES`. -/
def NUM_BYTES : Nat := 4

/-- One shift/xor round of the reflected CRC-32 computation (polynomial
`0xEDB88320`), exactly the per-bit update performed by `binascii.crc32`. -/
def crc_step (c : Nat) : Nat :=
  (c >>> 1) ^^^ (0xEDB88320 * (c &&& 1))

/-- Folding one input byte into the running CRC register: xor the byte in,
then run eight shift/xor rounds. -/
def crc_byte (c b : Nat) : Nat :=
  crc_step^[8] (c ^^^ b)

/-- Folding a byte string into the running CRC register. -/
def crc_update (c : Nat) (l : List Nat) : Nat :=
  l.foldl crc_byte c

/-- `crc.crc32(bytearr)`, a faithful model of `binascii.crc32`: initial
register `0xFFFFFFFF`, reflected polynomial `0xEDB88320`, final complement. -/
def crc32 (bytearr : List Nat) : Nat :=
  crc_update 0xFFFFFFFF bytearr ^^^ 0xFFFFFFFF

/-- `crc._generate(payload)`: `None` for an empty payload, otherwise the
4-byte little-endian encoding of `crc32(payload)` via
`byteutils.int_to_bytes`. -/
def _generate (payload : List Nat) : Option (List Nat) :=
  if payload.length = 0 then none
  else byteutils.int_to_bytes (crc32 payload)

/-- `crc.attach(payload)`: `payload ++ crc` when a checksum could be
generated, `None` otherwise (in particular for the empty payload). -/
def attach (payload : List Nat) : Option (List Nat) :=
  match _generate payload with
  | none => none
  | some c => some (payload ++ c)

/-- `crc._extract_payload(body)`: `body[:len(body)-4]`, or `None` when
`len(body) <= 4`. -/
def _extract_payload (body : List Nat) : Option (List Nat) :=
  if body.length ≤ NUM_BYTES then none
  else some (body.take (body.length - NUM_BYTES))

/-- `crc._extract_crc(body)`: `body[len(body)-4:]`, or `None` when
`len(body) <= 4`. -/
def _extract_crc (body : List Nat) : Option (List Nat) :=
  if body.length ≤ NUM_BYTES then none
  else some (body.drop (body.length - NUM_BYTES))

/-- `crc.check(body)`: `None` when `len(body) <= 4` (the Python function
returns `None`, not a boolean, on that path), `False` when any of the
extraction or generation steps yields `None`, otherwise whether the stored
and recomputed checksums agree. -/
def check (body : List Nat) : Option Bool :=
  if body.length ≤ NUM_BYTES then none
  else
    match _extract_payload body, _extract_crc body with
    | some payload, some c =>
      match _generate payload with
      | none => some false
      | some gen => some (decide (c = gen))
    | _, _ => some false

/-- `crc.check_and_remove(body)`: runs `check`; every falsy outcome (`None`
or `False`) yields `None`, a true outcome yields the extracted payload.  No
exception is ever raised. -/
def check_and_remove (body : List Nat) : Option (List Nat) :=
  match check body with
  | some true => _extract_payload body
  | _ => none

theorem crc_step_lt {c : Nat} (h : c < 2 ^ 32) : crc_step c < 2 ^ 32 := by
  unfold crc_step
  apply Nat.xor_lt_two_pow
  · rw [Nat.shiftRight_eq_div_pow]
    exact lt_of_le_of_lt (Nat.div_le_self c (2 ^ 1)) h
  · have h1 : c &&& 1 ≤ 1 := Nat.and_le_right
    calc 0xEDB88320 * (c &&& 1) ≤ 0xEDB88320 * 1 := Nat.mul_le_mul_left _ h1
      _ < 2 ^ 32 := by norm_num

theorem crc_step_iterate_lt {c : Nat} (k : Nat) (h : c < 2 ^ 32) :
    crc_step^[k] c < 2 ^ 32 := by
  induction k generalizing c with
  | zero => exact h
  | succ k ih =>
    rw [Function.iterate_succ_apply]
    exact ih (crc_step_lt h)

theorem crc_byte_lt {c b : Nat} (hc : c < 2 ^ 32) (hb : b < 2 ^ 32) :
    crc_byte c b < 2 ^ 32 :=
  crc_step_iterate_lt 8 (Nat.xor_lt_two_pow hc hb)

theorem crc_update_lt {c : Nat} {l : List Nat} (hc : c < 2 ^ 32)
    (hl : ∀ x ∈ l, x < 2 ^ 32) : crc_update c l < 2 ^ 32 := by
  induction l generalizing c with
  | nil => exact hc
  | cons b rest ih =>
    have hb : b < 2 ^ 32 := hl b (by simp)
    exact ih (crc_byte_lt hc hb) (fun x hx => hl x (by simp [hx]))

/-- The CRC-32 of a genuine byte string fits in 32 bits, so
`byteutils.int_to_bytes` never overflows on it. -/
theorem crc32_lt {l : List Nat} (hl : ∀ x ∈ l, x < 256) : crc32 l < 2 ^ 32 := by
  unfold crc32
  apply Nat.xor_lt_two_pow
  · exact crc_update_lt (by norm_num)
      (fun x hx => lt_trans (hl x hx) (by norm_num))
  · norm_num

theorem _generate_eq {p : List Nat} (hne : p ≠ []) (hlt : crc32 p < 2 ^ 32) :
    _generate p = some (byteutils.toLE 4 (crc32 p)) := by
  unfold _generate byteutils.int_to_bytes
  rw [if_neg (by simpa using List.length_eq_zero.not.mpr hne), if_pos]
  · simp [byteutils.BYTES_PER_INT]
  · constructor
    · exact Int.natCast_nonneg _
    · exact_mod_cast hlt

/-- Attaching a CRC to a nonempty genuine byte string succeeds and appends the
4-byte little-endian checksum. -/
theorem attach_eq {p : List Nat} (hne : p ≠ []) (hlt : crc32 p < 2 ^ 32) :
    attach p = some (p ++ byteutils.toLE 4 (crc32 p)) := by
  unfold attach
  rw [_generate_eq hne hlt]

/-- `check` accepts a body of the form `payload ++ crc-bytes`. -/
theorem check_attach {p : List Nat} (hne : p ≠ []) (hlt : crc32 p < 2 ^ 32) :
    check (p ++ byteutils.toLE 4 (crc32 p)) = some true := by
  have hplen : 0 < p.length := List.length_pos.mpr hne
  have hlen4 : (byteutils.toLE 4 (crc32 p)).length = 4 :=
    byteutils.toLE_length 4 _
  have hlen : (p ++ byteutils.toLE 4 (crc32 p)).length = p.length + 4 := by
    simp [hlen4]
  have hsub : (p ++ byteutils.toLE 4 (crc32 p)).length - NUM_BYTES = p.length := by
    simp [hlen, NUM_BYTES]
  unfold check _extract_payload _extract_crc
  rw [if_neg (by omega), if_neg (by omega), if_neg (by omega)]
  rw [hsub, List.take_left' rfl, List.drop_left' rfl]
  dsimp only
  rw [_generate_eq hne hlt]
  simp

theorem check_and_remove_attach {p : List Nat} (hne : p ≠ [])
    (hlt : crc32 p < 2 ^ 32) :
    check_and_remove (p ++ byteutils.toLE 4 (crc32 p)) = some p := by
  unfold check_and_remove
  rw [check_attach hne hlt]
  have hlen4 : (byteutils.toLE 4 (crc32 p)).length = 4 :=
    byteutils.toLE_length 4 _
  have hplen : 0 < p.length := List.length_pos.mpr hne
  have hlen : (p ++ byteutils.toLE 4 (crc32 p)).length = p.length + 4 := by
    simp [hlen4]
  have hsub : (p ++ byteutils.toLE 4 (crc32 p)).length - NUM_BYTES = p.length := by
    simp [hlen, NUM_BYTES]
  unfold _extract_payload
  rw [if_neg (by omega), hsub, List.take_left' rfl]

/-- If `check` does not return `True`, `check_and_remove` returns `None`. -/
theorem check_and_remove_of_not_true {body : List Nat}
    (h : check body ≠ some true) : check_and_remove body = none := by
  unfold check_and_remove
  cases hc : check body with
  | none => rfl
  | some b => cases b with
    | false => rfl
    | true => exact absurd hc h

/-- If `check` returns `True`, `check_and_remove` returns `body[:len(body)-4]`. -/
theorem check_and_remove_of_true {body : List Nat}
    (h : check body = some true) :
    check_and_remove body = some (body.take (body.length - NUM_BYTES)) := by
  have hlen : ¬ body.length ≤ NUM_BYTES := by
    intro hle
    rw [check, if_pos hle] at h
    exact Option.noConfusion h
  unfold check_and_remove
  rw [h]
  unfold _extract_payload
  rw [if_neg hlen]

end crc

namespace header

/-- `header.SIZE` (= 12). -/
def SIZE : Nat := 8 + crc.NUM_BYTES

/-- `header.HEADER_BYTE` (= `b"\x68"`). -/
def HEADER_BYTE : Nat := 0x68

/-- `header.BODY_LENGTH_OFFSET`. -/
def BODY_LENGTH_OFFSET : Nat := 4

/-- `header.BODY_LENGTH_SIZE`. -/
def BODY_LENGTH_SIZE : Nat := 4

/-- `header.CRC_OFFSET`. -/
def CRC_OFFSET : Nat := 8

/-- `header.CRC_SIZE`. -/
def CRC_SIZE : Nat := crc.NUM_BYTES

/-- `header.Info`: the validated fields of a parsed header. -/
structure Info where
  id : List Nat
  size : Int
  crc : Int
deriving DecidableEq, Repr

/-- `header.validate_and_parse(header)`, i.e. the body of `Info.__init__`:
`MissingDataError` unless the length is exactly `SIZE`; `MalformedDataError`
unless the own CRC of the header verifies; then the fields are decoded
(`id = bytes([header[0]])`, `size`/`crc` via `byteutils.bytes_to_int` on the
4-byte slices at offsets 4 and 8) and a negative `size` raises
`MalformedDataError`. -/
def validate_and_parse (h : List Nat) : Except PErr Info :=
  if h.length ≠ SIZE then .error .MissingData
  else if crc.check h ≠ some true then .error .MalformedData
  else
    match byteutils.bytes_to_int ((h.drop BODY_LENGTH_OFFSET).take BODY_LENGTH_SIZE) with
    | .error e => .error e
    | .ok size =>
      match byteutils.bytes_to_int ((h.drop CRC_OFFSET).take CRC_SIZE) with
      | .error e => .error e
      | .ok c =>
        if size < 0 then .error .MalformedData
        else .ok ⟨h.take 1, size, c⟩

/-- `header._generate(body)`: `MalformedDataError` unless the trailing body
CRC verifies; otherwise builds the 8 preamble bytes
`HEADER_BYTE + b"\x00\x00\x00" + int_to_bytes(len(body))` and returns
`crc.attach` of them (which the Python code returns as-is, even were it
`None`).  `int_to_bytes` overflowing is modelled as `OverflowError`. -/
def _generate (body : List Nat) : Except PErr (Option (List Nat)) :=
  if crc.check body ≠ some true then .error .MalformedData
  else
    match byteutils.int_to_bytes (body.length : Int) with
    | none => .error .OverflowErr
    | some length_bytes =>
      .ok (crc.attach (HEADER_BYTE :: 0 :: 0 :: 0 :: length_bytes))

/-- `header.attach(body)`: `header + body`; a `None` generated header would
make the Python concatenation raise `TypeError`. -/
def attach (body : List Nat) : Except PErr (List Nat) :=
  match _generate body with
  | .error e => .error e
  | .ok none => .error .TypeErr
  | .ok (some hd) => .ok (hd ++ body)

/-- The 12 header bytes `header._generate` produces for a body of length `n`
(when it succeeds): the 8 preamble bytes followed by their own CRC. -/
def mk_header (n : Nat) : List Nat :=
  (HEADER_BYTE :: 0 :: 0 :: 0 :: byteutils.toLE 4 n) ++
    byteutils.toLE 4 (crc.crc32 (HEADER_BYTE :: 0 :: 0 :: 0 :: byteutils.toLE 4 n))

/-- A successfully parsed header has exactly `SIZE` bytes. -/
theorem validate_and_parse_length {h : List Nat} {info : Info}
    (hp : validate_and_parse h = .ok info) : h.length = SIZE := by
  by_contra hne
  rw [validate_and_parse, if_pos hne] at hp
  exact Except.noConfusion hp

end header

/-- A stream transport: the list of byte chunks still pending delivery.  One
`socket.recv(n)` call returns at most `n` bytes from the first pending chunk
(the rest of that chunk stays buffered) and returns the empty byte string once
no data remains (the peer closed the stream). -/
structure Transport where
  chunks : List (List Nat)
deriving DecidableEq, Repr

/-- `socket.recv(n)` on the transport model: see `Transport`. -/
def sock_recv (t : Transport) (n : Nat) : List Nat × Transport :=
  if n = 0 then ([], t)
  else
    match t.chunks with
    | [] => ([], t)
    | c :: rest =>
      if c.length ≤ n then (c, ⟨rest⟩)
      else (c.take n, ⟨c.drop n :: rest⟩)

namespace PClientSocket

/-- `PClientSocket.send(payload)` (bytes payload): `TypeError` on `None`
payload; the sentinel `-1` when the socket was never initialized; otherwise
`crc.attach`, `header.attach` and a full write of the frame, returning the
number of bytes written. -/
def send (client_socket : Option Transport) (payload : Option (List Nat)) :
    Except PErr Int :=
  match payload with
  | none => .error .TypeErr
  | some p =>
    match client_socket with
    | none => .ok (-1)
    | some _ =>
      match crc.attach p with
      | none => .error .TypeErr
      | some body =>
        match header.attach body with
        | .error e => .error e
        | .ok message => .ok (message.length : Int)

/-- `PClientSocket.recv()`: `None` when the socket was never initialized; one
single `socket.recv(header.SIZE)` call (no retry on a partial read), `None` on
a zero-length read, header validation, one single `socket.recv(info.size)`
call, and `crc.check_and_remove` on whatever that read returned.  Returns the
received-payload result together with the transport state left behind. -/
def recv (client_socket : Option Transport) :
    Except PErr (Option (List Nat)) × Option Transport :=
  match client_socket with
  | none => (.ok none, none)
  | some t =>
    let r := sock_recv t header.SIZE
    if r.1.length = 0 then (.ok none, some r.2)
    else
      match header.validate_and_parse r.1 with
      | .error e => (.error e, some r.2)
      | .ok info =>
        let r2 := sock_recv r.2 info.size.toNat
        (.ok (crc.check_and_remove r2.1), some r2.2)

end PClientSocket

namespace PServerSocket

/-- `PServerSocket.recv(client_connection)`: identical read logic to
`PClientSocket.recv` on a per-client transport (the `None`-connection
`TypeError` path is outside this model: the server loop always passes a live
connection). -/
def recv (client_connection : Transport) :
    Except PErr (Option (List Nat)) × Transport :=
  let r := sock_recv client_connection header.SIZE
  if r.1.length = 0 then (.ok none, r.2)
  else
    match header.validate_and_parse r.1 with
    | .error e => (.error e, r.2)
    | .ok info =>
      let r2 := sock_recv r.2 info.size.toNat
      (.ok (crc.check_and_remove r2.1), r2.2)

end PServerSocket

namespace PServer

/-- How one run of `PServer._listen_on_client` ended: the loop is still
running when the observation budget (fuel) runs out, returned after a
disconnect, or died because an uncaught exception propagated out of it. -/
inductive LoopExit where
  | stillRunning
  | disconnected
  | crashed (e : PErr)
deriving DecidableEq, Repr

/-- Observable behaviour of one run of `PServer._listen_on_client`: how many
times `client_disconnected` was invoked, the payloads handed to
`client_communicated` in order, and how the loop ended. -/
structure LoopResult where
  disconnect_calls : Nat
  communicated : List (List Nat)
  exit : LoopExit
deriving DecidableEq, Repr

/-- The map assignment `self.client_connections[client_socket] = (None, None)`:
the entry of key `k` is overwritten with a dead marker; no key is removed. -/
def set_dead (m : List (Nat × Bool)) (k : Nat) : List (Nat × Bool) :=
  m.map (fun p => if p.1 = k then (p.1, false) else p)

/-- `PServer._listen_on_client(client_socket, interrupter)` with the
interrupter never set, on the live-connection map `m` (keys are connection
identities, `true` marks a live `(thread, interrupter)` pair, `false` the
`(None, None)` dead marker) and the key `k` of this connection.  Per iteration:
`socket.error` from `recv` is caught and the loop continues; any other
exception propagates and kills the loop; a `None` result invokes
`client_disconnected`, overwrites the map entry with `(None, None)` and
returns; a payload is handed to `client_communicated` and the loop
continues.  `fuel` bounds the number of iterations observed. -/
def _listen_on_client :
    Nat → Transport → List (Nat × Bool) → Nat → LoopResult × List (Nat × Bool)
  | 0, _, m, _ => (⟨0, [], .stillRunning⟩, m)
  | fuel + 1, t, m, k =>
    match PServerSocket.recv t with
    | (.error e, t') =>
      if e = PErr.SocketErr then _listen_on_client fuel t' m k
      else (⟨0, [], .crashed e⟩, m)
    | (.ok none, _) => (⟨1, [], .disconnected⟩, set_dead m k)
    | (.ok (some p), t') =>
      let r := _listen_on_client fuel t' m k
      (⟨r.1.disconnect_calls, p :: r.1.communicated, r.1.exit⟩, r.2)

end PServer

/-! ### Concrete frames used by the counterexamples and witnesses -/

/-- A sample application payload, the bytes of `b"Hi"`. -/
def demo_payload : List Nat := [72, 105]

/-- The body `crc.attach` produces for `demo_payload`. -/
def demo_body : List Nat := demo_payload ++ byteutils.toLE 4 (crc.crc32 demo_payload)

/-- The full wire frame for `demo_payload` (18 bytes). -/
def demo_msg : List Nat := header.mk_header demo_body.length ++ demo_body

/-- 12 bytes that are header-shaped but whose trailing 4 bytes are not the
CRC-32 of the first 8: a corrupt header. -/
def bad12 : List Nat := [104, 0, 0, 0, 1, 0, 0, 0, 9, 9, 9, 9]

/-- A well-formed header announcing a 5-byte body. -/
def hdr5 : List Nat := header.mk_header 5

/-- 5 bytes whose trailing 4 bytes are not the CRC-32 of the first 1: a
corrupt body. -/
def corrupt_body : List Nat := [1, 2, 3, 4, 5]

/-- The `header.Info` that parsing `hdr5` yields. -/
def info5 : header.Info :=
  ⟨[104], 5, (crc.crc32 (104 :: 0 :: 0 :: 0 :: byteutils.toLE 4 5) : Int)⟩

/-! ### The claims -/

set_option maxRecDepth 20000

/-- C1: the claim says `receive()` loops over partial transport reads until
exactly `HEADER_SIZE` (12) bytes and then exactly the parsed body size are
obtained, so a transport that answers a single read with fewer bytes than
requested still yields the complete validated payload.  The code performs a
single `socket.recv` call for the header and a single one for the body: the
very same 18-byte frame that is received intact when the transport delivers it
in one chunk makes `recv` raise `MissingDataError` when the transport delivers
it in a 6-byte chunk followed by a 12-byte chunk, instead of retrying the
header read. -/
theorem recv_does_not_retry_short_reads :
    (PClientSocket.recv (some ⟨[demo_msg]⟩)).1 = .ok (some demo_payload) ∧
    (PClientSocket.recv (some ⟨[demo_msg.take 6, demo_msg.drop 6]⟩)).1 =
      .error .MissingData :=
  ⟨rfl, rfl⟩

/-- C2: the claim (and the own test suite of the repository,
`test_attach_to_empty_argument` and `test_check_with_empty_payload`) says
`attach` is defined on the empty payload and yields just the 4 checksum
bytes.  The code path `crc._generate` returns `None` for a zero-length
payload, so `crc.attach(b"")` evaluates to `None`. -/
theorem attach_empty_returns_none : crc.attach [] = none :=
  rfl

/-- C5: the claim says `int_to_bytes(n)` succeeds on the whole signed 32-bit
range.  The code calls `n.to_bytes(4, "little")` without `signed=True`, which
raises `OverflowError` on every negative input; `-1` lies in the claimed range
and fails. -/
theorem int_to_bytes_negative_fails :
    byteutils.int_to_bytes (-1) = none ∧
    -2 ^ 31 ≤ (-1 : Int) ∧ (-1 : Int) < 2 ^ 31 :=
  ⟨rfl, by norm_num, by norm_num⟩

/-- C9: calling `send` with a non-null payload on a client socket whose
transport was never initialized returns the sentinel `-1` instead of raising
an exception. -/
theorem send_unconnected_returns_sentinel (p : List Nat) :
    PClientSocket.send none (some p) = .ok (-1) :=
  rfl

/-- Witness for C9 at the concrete payload `demo_payload`. -/
theorem send_unconnected_returns_sentinel_witness :
    PClientSocket.send none (some demo_payload) = .ok (-1) :=
  send_unconnected_returns_sentinel demo_payload

/-- C10: `recv()` on a client socket whose transport was never initialized
returns `None` without raising, the same distinguished value a clean peer
shutdown (a transport with no pending data) produces, so the two situations
are indistinguishable by the return value. -/
theorem recv_unconnected_indistinguishable_from_shutdown
    (t : Transport) (h : t.chunks = []) :
    (PClientSocket.recv none).1 = .ok none ∧
    (PClientSocket.recv (some t)).1 = .ok none := by
  refine ⟨rfl, ?_⟩
  obtain ⟨chunks⟩ := t
  subst h
  rfl

/-- Witness for C10 at the concrete closed transport. -/
theorem recv_unconnected_indistinguishable_from_shutdown_witness :
    (⟨[]⟩ : Transport).chunks = [] ∧
    (PClientSocket.recv none).1 = .ok none ∧
    (PClientSocket.recv (some ⟨[]⟩)).1 = .ok none :=
  ⟨rfl, recv_unconnected_indistinguishable_from_shutdown ⟨[]⟩ rfl⟩

/-- C6 counterexample: when the client closes its transport, the receive loop
observes the zero-length read and invokes `client_disconnected` exactly once,
but the connection entry is *not* removed from the live-connection map: the
key (here `7`) is still present afterwards, merely overwritten with the
`(None, None)` dead marker. -/
theorem disconnect_keeps_map_key_counterexample :
    PServer._listen_on_client 3 ⟨[]⟩ [(7, true)] 7 =
      (⟨1, [], .disconnected⟩, [(7, false)]) ∧
    (PServer._listen_on_client 3 ⟨[]⟩ [(7, true)] 7).2.map Prod.fst = [7] :=
  ⟨rfl, rfl⟩

/-- C6 as amended: on a zero-length read the receive loop invokes
`client_disconnected` exactly once and overwrites the entry of this connection
in the live-connection map with the `(None, None)` dead marker; the set of map
keys is unchanged (no entry is removed). -/
theorem disconnect_marks_entry_dead (fuel : Nat) (m : List (Nat × Bool)) (k : Nat) :
    PServer._listen_on_client (fuel + 1) ⟨[]⟩ m k =
      (⟨1, [], .disconnected⟩, PServer.set_dead m k) ∧
    (PServer.set_dead m k).map Prod.fst = m.map Prod.fst := by
  constructor
  · rfl
  · unfold PServer.set_dead
    rw [List.map_map]
    apply List.map_congr_left
    intro p _
    by_cases h : p.1 = k <;> simp [h]

/-- Witness for C6 as amended, at a concrete one-entry map. -/
theorem disconnect_marks_entry_dead_witness :
    PServer._listen_on_client (2 + 1) ⟨[]⟩ [(7, true)] 7 =
      (⟨1, [], .disconnected⟩, PServer.set_dead [(7, true)] 7) ∧
    (PServer.set_dead [(7, true)] 7).map Prod.fst = [(7, true)].map Prod.fst :=
  disconnect_marks_entry_dead 2 [(7, true)] 7

/-- C4 counterexample: a corrupt 12-byte header (`bad12`) followed by a fully
valid frame (`demo_msg`), with fuel to spare.  The claim says the
`MalformedData` error is treated as transient and the loop retries; in fact
the loop crashes immediately with the uncaught `MalformedDataError`, calls no
hook, and never delivers the valid frame that was queued next. -/
theorem listen_loop_crashes_on_malformed_counterexample :
    PServer._listen_on_client 5 ⟨[bad12, demo_msg]⟩ [(0, true)] 0 =
      (⟨0, [], .crashed .MalformedData⟩, [(0, true)]) :=
  rfl

/-- C4 as amended: the receive loop catches and retries only `socket.error`;
any other exception raised by a receive — in particular `MalformedDataError`
from a corrupt header — propagates out of `_listen_on_client` and terminates
the receive loop of that connection without invoking any hook or touching the
live-connection map. -/
theorem listen_loop_terminates_on_malformed (fuel : Nat) (t t' : Transport)
    (m : List (Nat × Bool)) (k : Nat) (e : PErr)
    (hrecv : PServerSocket.recv t = (.error e, t'))
    (hne : e ≠ .SocketErr) :
    PServer._listen_on_client (fuel + 1) t m k = (⟨0, [], .crashed e⟩, m) := by
  simp only [PServer._listen_on_client]
  rw [hrecv]
  simp [hne]

/-- Witness for C4: the corrupt header `bad12` makes the receive raise
`MalformedDataError`, and the loop run ends crashed with the map untouched. -/
theorem listen_loop_terminates_on_malformed_witness :
    PServerSocket.recv ⟨[bad12]⟩ = (.error .MalformedData, ⟨[]⟩) ∧
    PErr.MalformedData ≠ PErr.SocketErr ∧
    PServer._listen_on_client (3 + 1) ⟨[bad12]⟩ [(0, true)] 0 =
      (⟨0, [], .crashed .MalformedData⟩, [(0, true)]) :=
  ⟨rfl, by decide,
    listen_loop_terminates_on_malformed 3 ⟨[bad12]⟩ ⟨[]⟩ [(0, true)] 0
      .MalformedData rfl (by decide)⟩

/-- C3 counterexample: on the concrete 5-byte body `[1, 2, 3, 4, 5]`, whose
trailing 4 bytes are not the CRC-32 of `[1]`, `check` returns `False` but
`check_and_remove` returns `None` — no `MalformedDataError` is raised — and a
`recv` that reads a well-formed header announcing this corrupt body returns
the plain value `None` (the clean-shutdown sentinel), not an error. -/
theorem check_and_remove_returns_none_counterexample :
    crc.check corrupt_body = some false ∧
    crc.check_and_remove corrupt_body = none ∧
    (PClientSocket.recv (some ⟨[hdr5, corrupt_body]⟩)).1 = .ok none :=
  ⟨rfl, rfl, rfl⟩

/-- C3 as amended: `check_and_remove(body)` calls `check` and returns the
sentinel `None` — it raises no error — whenever `check` is not `True`;
otherwise it returns `body[:len(body)-4]`.  Consequently `recv` returns the
plain value `None` (the same value that signals a clean peer shutdown) on any
body checksum mismatch instead of propagating `MalformedData`. -/
theorem check_and_remove_sentinel_spec :
    (∀ body : List Nat, crc.check body ≠ some true →
      crc.check_and_remove body = none) ∧
    (∀ body : List Nat, crc.check body = some true →
      crc.check_and_remove body = some (body.take (body.length - 4))) ∧
    (∀ (hd bodyChunk : List Nat) (info : header.Info),
      header.validate_and_parse hd = .ok info →
      bodyChunk.length = info.size.toNat →
      0 < info.size.toNat →
      crc.check bodyChunk ≠ some true →
      (PClientSocket.recv (some ⟨[hd, bodyChunk]⟩)).1 = .ok none) := by
  refine ⟨fun body h => crc.check_and_remove_of_not_true h,
    fun body h => crc.check_and_remove_of_true h, ?_⟩
  intro hd bodyChunk info hp hblen hpos hcheck
  have hlen : hd.length = 12 := header.validate_and_parse_length hp
  have h1 : sock_recv ⟨[hd, bodyChunk]⟩ header.SIZE = (hd, ⟨[bodyChunk]⟩) := by
    unfold sock_recv
    have hsz : header.SIZE = 12 := rfl
    rw [hsz, if_neg (by norm_num)]
    simp [hlen]
  have h2 : sock_recv ⟨[bodyChunk]⟩ info.size.toNat = (bodyChunk, ⟨[]⟩) := by
    unfold sock_recv
    rw [if_neg (by omega)]
    simp [hblen]
  unfold PClientSocket.recv
  dsimp only
  rw [h1]
  have hne : ¬ hd.length = 0 := by omega
  simp only [hlen, hp, hne, if_false, reduceIte]
  rw [h2]
  simp [crc.check_and_remove_of_not_true hcheck]

/-- Witness for C3 as amended, at the concrete corrupt body
`[1, 2, 3, 4, 5]`, the valid body `demo_body`, and the header `hdr5`. -/
theorem check_and_remove_sentinel_spec_witness :
    crc.check_and_remove corrupt_body = none ∧
    crc.check_and_remove demo_body =
      some (demo_body.take (demo_body.length - 4)) ∧
    (PClientSocket.recv (some ⟨[hdr5, corrupt_body]⟩)).1 = .ok none :=
  ⟨check_and_remove_sentinel_spec.1 corrupt_body (by decide),
   check_and_remove_sentinel_spec.2.1 demo_body rfl,
   check_and_remove_sentinel_spec.2.2 hdr5 corrupt_body info5 rfl rfl
     (by decide) (by decide)⟩

/-- C7: `validate_and_parse(header_bytes)` raises `MissingDataError` whenever
the length is not 12; raises `MalformedDataError` whenever the header checksum
does not verify, and likewise whenever the decoded body size is negative
(which, the decode being unsigned, never actually happens); and on success
returns the tag (`bytes([header[0]])`), the size and the crc decoded from the
corresponding header slices. -/
theorem validate_and_parse_spec :
    (∀ h : List Nat, h.length ≠ 12 →
      header.validate_and_parse h = .error .MissingData) ∧
    (∀ h : List Nat, h.length = 12 → crc.check h ≠ some true →
      header.validate_and_parse h = .error .MalformedData) ∧
    (∀ h : List Nat, (byteutils.fromLE ((h.drop 4).take 4) : Int) < 0 →
      header.validate_and_parse h = .error .MalformedData) ∧
    (∀ (h : List Nat) (info : header.Info),
      header.validate_and_parse h = .ok info →
      info.id = h.take 1 ∧
      info.size = (byteutils.fromLE ((h.drop 4).take 4) : Int) ∧
      info.crc = (byteutils.fromLE ((h.drop 8).take 4) : Int)) := by
  have hsize12 : header.SIZE = 12 := rfl
  refine ⟨?_, ?_, ?_, ?_⟩
  · intro h hne
    rw [header.validate_and_parse, if_pos (by rw [hsize12]; exact hne)]
  · intro h hlen hch
    rw [header.validate_and_parse, if_neg (by rw [hsize12]; omega),
      if_pos hch]
  · intro h h3
    exact absurd h3 (not_lt.mpr (Int.natCast_nonneg _))
  · intro h info hp
    have hlen : h.length = 12 := header.validate_and_parse_length hp
    have hd4 : ((h.drop 4).take 4).length = 4 := by
      simp [List.length_take, List.length_drop, hlen]
    have hd8 : ((h.drop 8).take 4).length = 4 := by
      simp [List.length_take, List.length_drop, hlen]
    rw [header.validate_and_parse, if_neg (by rw [hsize12]; omega)] at hp
    by_cases hch : crc.check h = some true
    · rw [if_neg (by simp [hch])] at hp
      simp only [header.BODY_LENGTH_OFFSET, header.BODY_LENGTH_SIZE,
        header.CRC_OFFSET, header.CRC_SIZE, crc.NUM_BYTES,
        byteutils.bytes_to_int, byteutils.BYTES_PER_INT, hd4, hd8,
        reduceIte] at hp
      rw [if_neg (not_lt.mpr (Int.natCast_nonneg _))] at hp
      cases hp
      exact ⟨rfl, rfl, rfl⟩
    · rw [if_pos hch] at hp
      exact Except.noConfusion hp

/-- Witness for C7 at concrete headers: the empty header, the corrupt header
`bad12`, and the well-formed header `hdr5`. -/
theorem validate_and_parse_spec_witness :
    header.validate_and_parse [] = .error .MissingData ∧
    header.validate_and_parse bad12 = .error .MalformedData ∧
    (info5.id = hdr5.take 1 ∧
      info5.size = (byteutils.fromLE ((hdr5.drop 4).take 4) : Int) ∧
      info5.crc = (byteutils.fromLE ((hdr5.drop 8).take 4) : Int)) :=
  ⟨validate_and_parse_spec.1 [] (by decide),
   validate_and_parse_spec.2.1 bad12 (by decide) (by decide),
   validate_and_parse_spec.2.2.2 hdr5 info5 rfl⟩

/-- C8: for every body whose trailing CRC verifies (and whose length fits the
4-byte size field), `header._generate` succeeds, parsing the generated header
yields a size equal to the body length, and the generated header satisfies its
own checksum over the first 8 bytes. -/
theorem generate_header_roundtrip (b : List Nat)
    (hc : crc.check b = some true) (hb : b.length < 2 ^ 32) :
    header._generate b = .ok (some (header.mk_header b.length)) ∧
    (∃ info, header.validate_and_parse (header.mk_header b.length) = .ok info ∧
      info.size = (b.length : Int)) ∧
    crc.check (header.mk_header b.length) = some true := by
  have hh8 : header.mk_header b.length =
      (header.HEADER_BYTE :: 0 :: 0 :: 0 :: byteutils.toLE 4 b.length) ++
        byteutils.toLE 4 (crc.crc32
          (header.HEADER_BYTE :: 0 :: 0 :: 0 :: byteutils.toLE 4 b.length)) := rfl
  set hdr8 : List Nat :=
    header.HEADER_BYTE :: 0 :: 0 :: 0 :: byteutils.toLE 4 b.length with hdef
  have h8ne : hdr8 ≠ [] := by simp [hdef]
  have h8bytes : ∀ x ∈ hdr8, x < 256 := by
    intro x hx
    rw [hdef] at hx
    simp only [List.mem_cons] at hx
    rcases hx with rfl | rfl | rfl | rfl | hx
    · norm_num [header.HEADER_BYTE]
    · norm_num
    · norm_num
    · norm_num
    · exact byteutils.toLE_lt_256 4 _ x hx
  have hcrc8 : crc.crc32 hdr8 < 2 ^ 32 := crc.crc32_lt h8bytes
  have hint : byteutils.int_to_bytes (b.length : Int) =
      some (byteutils.toLE 4 b.length) := by
    rw [byteutils.int_to_bytes,
      if_pos ⟨Int.natCast_nonneg _, by exact_mod_cast hb⟩]
    simp [byteutils.BYTES_PER_INT]
  have hgen : header._generate b = .ok (crc.attach hdr8) := by
    rw [header._generate, if_neg (by simp [hc]), hint]
  have hatt : crc.attach hdr8 = some (header.mk_header b.length) := by
    rw [hh8]
    exact crc.attach_eq h8ne hcrc8
  have hchk : crc.check (header.mk_header b.length) = some true := by
    rw [hh8]
    exact crc.check_attach h8ne hcrc8
  have hlen8 : hdr8.length = 8 := by simp [hdef, byteutils.toLE_length]
  have hmlen : (header.mk_header b.length).length = 12 := by
    rw [hh8]
    simp [hlen8, byteutils.toLE_length]
  have hdrop4 : (header.mk_header b.length).drop 4 =
      byteutils.toLE 4 b.length ++ byteutils.toLE 4 (crc.crc32 hdr8) := rfl
  have hsize_bytes : ((header.mk_header b.length).drop 4).take 4 =
      byteutils.toLE 4 b.length := by
    rw [hdrop4, List.take_left' (byteutils.toLE_length 4 _)]
  have h2564 : (2 : Nat) ^ 32 = 256 ^ 4 := by norm_num
  have hsbval : byteutils.bytes_to_int (byteutils.toLE 4 b.length) =
      .ok (b.length : Int) := by
    simp only [byteutils.bytes_to_int, byteutils.BYTES_PER_INT,
      byteutils.toLE_length, reduceIte]
    rw [byteutils.fromLE_toLE (lt_of_lt_of_eq hb h2564)]
  have hcrc_bytes : ((header.mk_header b.length).drop 8).take 4 =
      byteutils.toLE 4 (crc.crc32 hdr8) := by
    conv_lhs => rw [hh8]
    rw [List.drop_left' hlen8]
    exact List.take_of_length_le (le_of_eq (byteutils.toLE_length 4 _))
  have hcbval : byteutils.bytes_to_int (byteutils.toLE 4 (crc.crc32 hdr8)) =
      .ok (crc.crc32 hdr8 : Int) := by
    simp only [byteutils.bytes_to_int, byteutils.BYTES_PER_INT,
      byteutils.toLE_length, reduceIte]
    rw [byteutils.fromLE_toLE (lt_of_lt_of_eq hcrc8 h2564)]
  refine ⟨by rw [hgen, hatt], ?_, hchk⟩
  refine ⟨⟨(header.mk_header b.length).take 1, (b.length : Int),
    (crc.crc32 hdr8 : Int)⟩, ?_, rfl⟩
  rw [header.validate_and_parse, if_neg (by rw [hmlen]; simp [header.SIZE, crc.NUM_BYTES]),
    if_neg (by simp [hchk])]
  simp only [header.BODY_LENGTH_OFFSET, header.BODY_LENGTH_SIZE,
    header.CRC_OFFSET, header.CRC_SIZE, crc.NUM_BYTES]
  rw [hsize_bytes, hsbval, hcrc_bytes, hcbval]
  dsimp only
  rw [if_neg (not_lt.mpr (Int.natCast_nonneg _))]

/-- Witness for C8 at the concrete valid body `demo_body`. -/
theorem generate_header_roundtrip_witness :
    crc.check demo_body = some true ∧ demo_body.length < 2 ^ 32 ∧
    header._generate demo_body =
      .ok (some (header.mk_header demo_body.length)) ∧
    (∃ info,
      header.validate_and_parse (header.mk_header demo_body.length) =
        .ok info ∧ info.size = (demo_body.length : Int)) ∧
    crc.check (header.mk_header demo_body.length) = some true := by
  have h := generate_header_roundtrip demo_body (by decide) (by decide)
  exact ⟨by decide, by decide, h.1, h.2.1, h.2.2⟩

end Pnet

